import Mathlib

/-!
Verification of the sui-kit client toolkit.

The repository exposes a `SuiKit` facade (src/src/index.ts) that composes an
account manager, an RPC provider (chain reader/writer and coin selector), a
transaction builder (`SuiTxBlock`), a multi-signature aggregator and a package
publisher.  The facade itself is embedded directly from src/src/index.ts; the
collaborator modules (`./sui-rpc-provider`, `./sui-tx-builder/sui-tx-block`,
`./kits/multiSig`, `./sui-package-publisher`) are not part of the provided
sources, so they are modelled from the specification as indicated on each
definition.
-/

namespace SuiKitModel

/-- Error taxonomy of the toolkit, from spec section 7. -/
inductive KitError where
  | InsufficientBalance
  | InvalidCoinSet
  | LengthMismatch
  | PayloadFinalized
  | UnknownSigner
  | ThresholdNotMet
  | PackageNotFound
  | BuildFailed
  | PublishResultMalformed
  | SubmissionRejected
deriving Repr, DecidableEq

/-- A value object ("coin"): an owned, uniquely identified unit of fungible
balance of a given type, with an integer balance amount. -/
structure ValueObject where
  objectId : String
  balance : Nat
deriving Repr, DecidableEq

/-- Summed balance of a list of coins. -/
def sumBal (coins : List ValueObject) : Nat :=
  (coins.map (·.balance)).sum

/-- The external ledger view: for each owner address and value type, the list
of owned value objects, in provider-determined order. -/
structure Ledger where
  coinsOf : String → String → List ValueObject

/-- Total balance of an owner for a coin type, as the chain reader reports it. -/
def Ledger.balanceOf (L : Ledger) (owner coinType : String) : Nat :=
  sumBal (L.coinsOf owner coinType)

/-- Modelled from the spec: the accumulation loop of `CoinSelector.select`
(`rpcProvider.selectCoins`, module `./sui-rpc-provider`, not under the provided
sources).  Accumulates objects in provider order until the running sum reaches
the amount; returns `none` when the coins run out first. -/
def selectGo (amount : Nat) : List ValueObject → Nat → List ValueObject → Option (List ValueObject)
  | coins, acc, sel =>
    if amount ≤ acc then some sel.reverse
    else
      match coins with
      | [] => none
      | c :: rest => selectGo amount rest (acc + c.balance) (c :: sel)

namespace CoinSelector

/-- Modelled from the spec: `CoinSelector.select(owner, amount, valueType)`
(`rpcProvider.selectCoins`, module `./sui-rpc-provider`, not under the provided
sources).  Fetches all value objects of the type owned by the owner and
accumulates them until the running sum is at least the amount; fails with
`InsufficientBalance` when the total available balance is below the amount. -/
def select (L : Ledger) (owner : String) (amount : Nat) (valueType : String) :
    Except KitError (List ValueObject) :=
  match selectGo amount (L.coinsOf owner valueType) 0 [] with
  | some sel => .ok sel
  | none => .error .InsufficientBalance

end CoinSelector

/-- A handle to an object usable inside a transaction payload: either an
externally supplied coin object (referenced by id) or the result produced by
the operation at a given index of the payload. -/
inductive Handle where
  | coinObject (objectId : String)
  | opResult (opIndex : Nat)
deriving Repr, DecidableEq

/-- Operations a transaction payload can hold, modelled from spec section 4.2
(the tagged-variant operation list of the TransactionBuilder). -/
inductive TxOp where
  | mergeCoins (dest : Handle) (sources : List Handle)
  | splitCoins (source : Handle) (amount : Nat)
  | transferObjects (objs : List Handle) (recipient : String)
  | transferSui (recipient : String) (amount : Nat)
  | stakeSui (amount : Nat) (validator : String)
deriving Repr, DecidableEq

/-- The raw transaction payload: an ordered list of operations.  Embeds the
`TransactionBlock` that `SuiTxBlock` wraps (src/src/index.ts accesses it as
`tx.txBlock`). -/
structure TransactionBlock where
  ops : List TxOp
deriving Repr, DecidableEq

/-- The transaction builder wrapper used by the facade; its underlying raw
payload is the `txBlock` field, as in src/src/index.ts line 105. -/
structure SuiTxBlock where
  txBlock : TransactionBlock
deriving Repr, DecidableEq

/-- A fresh, empty builder, as constructed by `new SuiTxBlock()`. -/
def SuiTxBlock.empty : SuiTxBlock := ⟨⟨[]⟩⟩

/-- Append one operation to the underlying payload. -/
def SuiTxBlock.addOp (tx : SuiTxBlock) (op : TxOp) : SuiTxBlock :=
  ⟨⟨tx.txBlock.ops ++ [op]⟩⟩

/-- Modelled from the spec: `takeAmountFromCoins(coinIds, amount)` of the
TransactionBuilder (module `./sui-tx-builder/sui-tx-block`, not under the
provided sources).  On a non-empty list it merges all but one coin into the
first (skipping the merge when the list is a singleton), splits the amount off
the merged coin, and returns the split handle (exact amount) together with the
merged coin handle (remainder); on an empty list it fails with
`InvalidCoinSet`. -/
def SuiTxBlock.takeAmountFromCoins (tx : SuiTxBlock) (coinIds : List String) (amount : Nat) :
    Except KitError (SuiTxBlock × Handle × Handle) :=
  match coinIds with
  | [] => .error .InvalidCoinSet
  | first :: rest =>
    let tx1 : SuiTxBlock :=
      if rest.isEmpty then tx
      else tx.addOp (.mergeCoins (.coinObject first) (rest.map .coinObject))
    let splitIdx := tx1.txBlock.ops.length
    let tx2 := tx1.addOp (.splitCoins (.coinObject first) amount)
    .ok (tx2, .opResult splitIdx, .coinObject first)

/-- Modelled from the spec: `transferSui(recipient, amount)` of the
TransactionBuilder (module `./sui-tx-builder/sui-tx-block`, not under the
provided sources): appends one transfer operation. -/
def SuiTxBlock.transferSui (tx : SuiTxBlock) (recipient : String) (amount : Nat) : SuiTxBlock :=
  tx.addOp (.transferSui recipient amount)

/-- The transfer operations produced for a recipients/amounts pair, pairing
the two sequences positionally. -/
def pairedTransferOps (recipients : List String) (amounts : List Nat) : List TxOp :=
  List.zipWith (fun r a => TxOp.transferSui r a) recipients amounts

/-- Modelled from the spec: `transferSuiToMany(recipients, amounts)` of the
TransactionBuilder (module `./sui-tx-builder/sui-tx-block`, not under the
provided sources): requires equal lengths, failing with `LengthMismatch`
otherwise, and appends one transfer operation per position, pairing recipient
and amount in input order. -/
def SuiTxBlock.transferSuiToMany (tx : SuiTxBlock) (recipients : List String)
    (amounts : List Nat) : Except KitError SuiTxBlock :=
  if recipients.length ≠ amounts.length then .error .LengthMismatch
  else .ok ⟨⟨tx.txBlock.ops ++ pairedTransferOps recipients amounts⟩⟩

/-- Modelled from the spec: `stakeSui(amount, validatorAddr)` of the
TransactionBuilder (module `./sui-tx-builder/sui-tx-block`, not under the
provided sources): appends one staking operation. -/
def SuiTxBlock.stakeSui (tx : SuiTxBlock) (amount : Nat) (validatorAddr : String) : SuiTxBlock :=
  tx.addOp (.stakeSui amount validatorAddr)

/-- Balance semantics of a single operation at payload index i, over an
environment assigning a balance to every handle.  Merging moves the sources'
balances onto the destination; splitting moves the amount from the source onto
the handle of the operation's result. -/
def evalOp (i : Nat) (f : Handle → Nat) : TxOp → (Handle → Nat)
  | .mergeCoins dest srcs => fun h =>
      if h ∈ srcs then 0
      else if h = dest then f dest + (srcs.map f).sum
      else f h
  | .splitCoins src amt => fun h =>
      if h = .opResult i then amt
      else if h = src then f src - amt
      else f h
  | _ => f

/-- Balance semantics of an operation list starting at index i. -/
def evalOps : List TxOp → Nat → (Handle → Nat) → (Handle → Nat)
  | [], _, f => f
  | op :: rest, i, f => evalOps rest (i + 1) (evalOp i f op)

/-- Initial balance environment for a set of coin objects whose balances are
given by β; result handles hold nothing before their operation runs. -/
def initEnv (β : String → Nat) : Handle → Nat
  | .coinObject objId => β objId
  | .opResult _ => 0

/-- A weighted-threshold multi-signature policy: an ordered list of
(public key, weight) pairs plus a threshold. -/
structure MultiSigPolicy where
  keys : List (String × Nat)
  threshold : Nat
deriving Repr, DecidableEq

/-- A single signature share: public key, and signature bytes. -/
structure SigShare where
  pubKey : String
  bytes : List Nat
deriving Repr, DecidableEq

/-- The combined authorization object: bitmap over the policy's keys in
declared order, signature bytes in the same order, and the threshold. -/
structure CombinedAuthorization where
  bitmap : List Bool
  sigBytes : List (List Nat)
  threshold : Nat
deriving Repr, DecidableEq

/-- Weight of the supplied signatures deduplicated by public key: each policy
key contributes its weight once when at least one signature carries it. -/
def dedupWeight (policy : MultiSigPolicy) (sigs : List SigShare) : Nat :=
  ((policy.keys.filter fun kw => sigs.any fun s => decide (s.pubKey = kw.1)).map (·.2)).sum

namespace MultiSigClient

/-- Modelled from the spec: `MultiSigAggregator.combine(policy, signatures)`
(module `./kits/multiSig`, not under the provided sources).  Fails with
`UnknownSigner` when a signature's public key is not in the policy; sums the
weights of the supplied signatures deduplicating by public key and fails with
`ThresholdNotMet` when the sum is below the threshold; otherwise serializes
the presence bitmap and the signature bytes in the policy's declared key
order. -/
def combine (policy : MultiSigPolicy) (sigs : List SigShare) :
    Except KitError CombinedAuthorization :=
  if sigs.any fun s => !(policy.keys.any fun kw => decide (kw.1 = s.pubKey)) then
    .error .UnknownSigner
  else if dedupWeight policy sigs < policy.threshold then
    .error .ThresholdNotMet
  else
    .ok
      { bitmap := policy.keys.map fun kw => sigs.any fun s => decide (s.pubKey = kw.1)
        sigBytes :=
          (policy.keys.filter fun kw => sigs.any fun s => decide (s.pubKey = kw.1)).filterMap
            fun kw => (sigs.find? fun s => decide (s.pubKey = kw.1)).map (·.bytes)
        threshold := policy.threshold }

end MultiSigClient

/-- A BIP44 derivation path selector, as in src/src/index.ts. -/
structure DerivePathParams where
  accountIndex : Nat
  isExternal : Bool
  addressIndex : Nat
deriving Repr, DecidableEq

/-- The account manager (external AddressSource).  Modelled from the spec:
module `./sui-account-manager` is not under the provided sources; it resolves
a derivation path selector to an address and a key handle, and holds the
current identity used when no selector is given. -/
structure SuiAccountManager where
  currentAddress : String
  currentKey : Nat
  deriveAddress : DerivePathParams → String
  deriveKey : DerivePathParams → Nat

/-- Modelled from the spec: resolve the address for a selector, defaulting to
the current identity when no selector is given. -/
def SuiAccountManager.getAddress (am : SuiAccountManager) :
    Option DerivePathParams → String
  | none => am.currentAddress
  | some d => am.deriveAddress d

/-- Modelled from the spec: resolve the key handle for a selector, defaulting
to the current identity when no selector is given. -/
def SuiAccountManager.getKeyPair (am : SuiAccountManager) :
    Option DerivePathParams → Nat
  | none => am.currentKey
  | some d => am.deriveKey d

/-- A signer holding a resolved key handle, as built by `SuiKit.getSigner`. -/
structure RawSigner where
  keyPair : Nat
deriving Repr, DecidableEq

/-- The polymorphic signing input of src/src/index.ts lines 104 and 110:
raw bytes, a raw transaction block, or a `SuiTxBlock` builder. -/
inductive TxnInput where
  | rawBytes (bytes : List Nat)
  | txBlock (tb : TransactionBlock)
  | suiTx (tx : SuiTxBlock)
deriving Repr, DecidableEq

/-- The boundary normalization of src/src/index.ts line 105 and 111:
`tx = tx instanceof SuiTxBlock ? tx.txBlock : tx`. -/
def normalizeTxnInput : TxnInput → TxnInput
  | .suiTx tx => .txBlock tx.txBlock
  | p => p

/-- A signed transaction: the key that signed and the normalized payload it
covers. -/
structure SignedTxn where
  signerKey : Nat
  payload : TxnInput
deriving Repr, DecidableEq

/-- Signing a payload with a signer, the `signer.signTransactionBlock` call of
src/src/index.ts. -/
def signTransactionBlock (signer : RawSigner) (p : TxnInput) : SignedTxn :=
  ⟨signer.keyPair, p⟩

/-- Options accepted by the facade's `publishPackage`; modelled from the spec
as an opaque record of publisher options (module `./sui-package-publisher` is
not under the provided sources). -/
structure PublishOptions where
  gasBudget : Nat
  skipDependencyVerification : Bool
deriving Repr, DecidableEq

/-- The transient local filesystem state relevant to publishing: the set of
existing temporary working directories, named abstractly by numbers. -/
structure World where
  tmpDirs : List Nat
deriving Repr, DecidableEq

/-- A fresh directory name not colliding with any existing one. -/
def freshDir (w : World) : Nat := w.tmpDirs.foldr max 0 + 1

/-- Create a directory. -/
def World.createDir (w : World) (d : Nat) : World := ⟨d :: w.tmpDirs⟩

/-- Remove a directory. -/
def World.removeDir (w : World) (d : Nat) : World := ⟨w.tmpDirs.erase d⟩

/-- Directory lifecycle events observed during a publish call. -/
inductive DirEvent where
  | created (dir : Nat)
  | removed (dir : Nat)
deriving Repr, DecidableEq

/-- Outcome oracles for one publish invocation: whether the package path is an
existing directory, whether the external build succeeds, whether submission
succeeds, and whether the returned effects contain a package-creation entry. -/
structure PublishEnv where
  pathIsDirectory : String → Bool
  buildSucceeds : Bool
  submitSucceeds : Bool
  effectsHavePackage : Bool
  createdPackageId : String

/-- The result of a successful publish: the new package id and the key that
signed the publish transaction. -/
structure PublishResult where
  packageId : String
  publisherKey : Nat
deriving Repr, DecidableEq

namespace SuiPackagePublisher

/-- Modelled from the spec: `PackagePublisher.publish(packagePath, signer)`
(module `./sui-package-publisher`, not under the provided sources).  Validates
the path (failing with `PackageNotFound` before any directory is created),
creates a fresh temporary working directory, runs the external build (failing
with `BuildFailed`), submits (failing with `SubmissionRejected`), extracts the
created package id (failing with `PublishResultMalformed`), and removes the
working directory on every exit path after its creation.  Returns the result,
the final filesystem state, and the trace of directory events. -/
def publishPackage (env : PublishEnv) (packagePath : String) (signer : RawSigner)
    (w : World) : Except KitError PublishResult × World × List DirEvent :=
  if ¬ env.pathIsDirectory packagePath then
    (.error .PackageNotFound, w, [])
  else
    let d := freshDir w
    let w1 := w.createDir d
    let trace := [DirEvent.created d, DirEvent.removed d]
    if ¬ env.buildSucceeds then
      (.error .BuildFailed, w1.removeDir d, trace)
    else if ¬ env.submitSucceeds then
      (.error .SubmissionRejected, w1.removeDir d, trace)
    else if ¬ env.effectsHavePackage then
      (.error .PublishResultMalformed, w1.removeDir d, trace)
    else
      (.ok ⟨env.createdPackageId, signer.keyPair⟩, w1.removeDir d, trace)

end SuiPackagePublisher

/-- The facade state from src/src/index.ts: an account manager (the RPC
provider's ledger view and the publisher's environment are passed explicitly
where needed). -/
structure SuiKit where
  accountManager : SuiAccountManager

/-- Embeds src/src/index.ts lines 68-71: resolve the key pair for the selector
and wrap it in a signer. -/
def SuiKit.getSigner (kit : SuiKit) (d : Option DerivePathParams) : RawSigner :=
  ⟨kit.accountManager.getKeyPair d⟩

/-- Embeds src/src/index.ts lines 85-87: resolve the address for the selector. -/
def SuiKit.getAddress (kit : SuiKit) (d : Option DerivePathParams) : String :=
  kit.accountManager.getAddress d

/-- Embeds src/src/index.ts lines 104-108: normalize the polymorphic payload
at the boundary, resolve the signer, and sign. -/
def SuiKit.signTxn (kit : SuiKit) (tx : TxnInput) (d : Option DerivePathParams) : SignedTxn :=
  signTransactionBlock (kit.getSigner d) (normalizeTxnInput tx)

/-- Embeds src/src/index.ts lines 110-118: normalize the polymorphic payload
at the boundary, resolve the signer, sign and submit; the submitted signed
payload is returned (the chain response is a function of it). -/
def SuiKit.signAndSendTxn (kit : SuiKit) (tx : TxnInput) (d : Option DerivePathParams) :
    SignedTxn :=
  signTransactionBlock (kit.getSigner d) (normalizeTxnInput tx)

/-- Embeds src/src/index.ts lines 99-102: resolve the owner address and read
the balance from the chain; the read leaves the ledger unchanged (spec: read
only).  Returned in state-passing style. -/
def SuiKit.getBalance (kit : SuiKit) (L : Ledger) (coinType : String)
    (d : Option DerivePathParams) : Nat × Ledger :=
  (L.balanceOf (kit.accountManager.getAddress d) coinType, L)

/-- Modelled from the spec: `listOwnedObjects(address, type)` of the chain
reader (module `./sui-rpc-provider`, not under the provided sources); a
read-only query returned in state-passing style. -/
def listOwnedObjects (L : Ledger) (owner coinType : String) : List ValueObject × Ledger :=
  (L.coinsOf owner coinType, L)

/-- Embeds src/src/index.ts lines 137-141: build a fresh block, append one
transfer, sign and send. -/
def SuiKit.transferSui (kit : SuiKit) (recipient : String) (amount : Nat)
    (d : Option DerivePathParams) : SignedTxn :=
  let tx := SuiTxBlock.empty
  let tx := tx.transferSui recipient amount
  kit.signAndSendTxn (.suiTx tx) d

/-- Embeds src/src/index.ts lines 149-153: build a fresh block, append the
many-transfer operations, sign and send; a builder failure propagates. -/
def SuiKit.transferSuiToMany (kit : SuiKit) (recipients : List String) (amounts : List Nat)
    (d : Option DerivePathParams) : Except KitError SignedTxn :=
  let tx := SuiTxBlock.empty
  match tx.transferSuiToMany recipients amounts with
  | .error e => .error e
  | .ok tx => .ok (kit.signAndSendTxn (.suiTx tx) d)

/-- Embeds src/src/index.ts lines 162-170: build a fresh block, select coins
for the owner, take the amount from them, transfer the exact-amount handle to
the recipient and the merged remainder handle back to the owner, sign and
send; selection and builder failures propagate. -/
def SuiKit.transferCoin (kit : SuiKit) (L : Ledger) (recipient : String) (amount : Nat)
    (coinType : String) (d : Option DerivePathParams) : Except KitError SignedTxn :=
  let tx := SuiTxBlock.empty
  let owner := kit.accountManager.getAddress d
  match CoinSelector.select L owner amount coinType with
  | .error e => .error e
  | .ok coins =>
    match tx.takeAmountFromCoins (coins.map (·.objectId)) amount with
    | .error e => .error e
    | .ok (tx, sendCoin, mergedCoin) =>
      let tx := tx.addOp (.transferObjects [sendCoin] recipient)
      let tx := tx.addOp (.transferObjects [mergedCoin] owner)
      .ok (kit.signAndSendTxn (.suiTx tx) d)

/-- Embeds src/src/index.ts lines 178-182: build a fresh block, append one
staking operation, sign and send. -/
def SuiKit.stakeSui (kit : SuiKit) (amount : Nat) (validatorAddr : String)
    (d : Option DerivePathParams) : SignedTxn :=
  let tx := SuiTxBlock.empty
  let tx := tx.stakeSui amount validatorAddr
  kit.signAndSendTxn (.suiTx tx) d

/-- Embeds src/src/index.ts lines 126-129: resolve the signer and delegate to
the package publisher, forwarding only the path and the signer; the options
argument is accepted but not forwarded. -/
def SuiKit.publishPackage (kit : SuiKit) (env : PublishEnv) (packagePath : String)
    (options : Option PublishOptions) (d : Option DerivePathParams) (w : World) :
    Except KitError PublishResult × World × List DirEvent :=
  let signer := kit.getSigner d
  SuiPackagePublisher.publishPackage env packagePath signer w

theorem sumBal_reverse (l : List ValueObject) : sumBal l.reverse = sumBal l := by
  simp [sumBal, List.sum_reverse]

theorem selectGo_none_of_lt (amount : Nat) :
    ∀ (coins : List ValueObject) (acc : Nat) (sel : List ValueObject),
      acc + sumBal coins < amount → selectGo amount coins acc sel = none := by
  intro coins
  induction coins with
  | nil =>
    intro acc sel h
    simp [sumBal] at h
    simp [selectGo, Nat.not_le.mpr h]
  | cons c rest ih =>
    intro acc sel h
    have hacc : ¬ amount ≤ acc := by
      simp [sumBal] at h
      omega
    simp only [selectGo, if_neg hacc]
    apply ih
    simp [sumBal] at h ⊢
    omega

theorem selectGo_some_of_ge (amount : Nat) :
    ∀ (coins : List ValueObject) (sel : List ValueObject),
      amount ≤ sumBal sel + sumBal coins →
      ∃ r, selectGo amount coins (sumBal sel) sel = some r ∧ amount ≤ sumBal r := by
  intro coins
  induction coins with
  | nil =>
    intro sel h
    have h' : amount ≤ sumBal sel := by simpa [sumBal] using h
    refine ⟨sel.reverse, ?_, ?_⟩
    · simp [selectGo, h']
    · rwa [sumBal_reverse]
  | cons c rest ih =>
    intro sel h
    by_cases hacc : amount ≤ sumBal sel
    · exact ⟨sel.reverse, by simp [selectGo, hacc], by rwa [sumBal_reverse]⟩
    · have hsum : sumBal (c :: sel) = sumBal sel + c.balance := by
        simp [sumBal]; omega
      have h' : amount ≤ sumBal (c :: sel) + sumBal rest := by
        simp [sumBal] at h ⊢
        omega
      obtain ⟨r, hr, hge⟩ := ih (c :: sel) h'
      refine ⟨r, ?_, hge⟩
      simp only [selectGo, if_neg hacc]
      rw [hsum] at hr
      exact hr

theorem select_ok_of_ge (L : Ledger) (owner valueType : String) (amount : Nat)
    (hpos : 0 < amount) (hge : amount ≤ L.balanceOf owner valueType) :
    ∃ sel, CoinSelector.select L owner amount valueType = .ok sel ∧
      sel ≠ [] ∧ amount ≤ sumBal sel := by
  have h0 : amount ≤ sumBal ([] : List ValueObject) + sumBal (L.coinsOf owner valueType) := by
    simpa [sumBal, Ledger.balanceOf] using hge
  obtain ⟨r, hr, hge'⟩ := selectGo_some_of_ge amount (L.coinsOf owner valueType) [] h0
  have hr' : selectGo amount (L.coinsOf owner valueType) 0 [] = some r := by
    simpa [sumBal] using hr
  refine ⟨r, ?_, ?_, hge'⟩
  · simp [CoinSelector.select, hr']
  · intro hnil
    rw [hnil] at hge'
    simp [sumBal] at hge'
    omega

theorem select_err_of_lt (L : Ledger) (owner valueType : String) (amount : Nat)
    (hlt : L.balanceOf owner valueType < amount) :
    CoinSelector.select L owner amount valueType = .error .InsufficientBalance := by
  have hnone : selectGo amount (L.coinsOf owner valueType) 0 [] = none := by
    apply selectGo_none_of_lt
    simpa [Ledger.balanceOf] using hlt
  simp [CoinSelector.select, hnone]

/-- C1: for every owner, positive amount, and value type, if the summed balance
of the owner's coins of that type is at least the amount then
`CoinSelector.select` returns a non-empty selection whose summed balance is at
least the amount; if the summed balance is below the amount it fails with
`InsufficientBalance`. -/
theorem coinSelector_select_correct (L : Ledger) (owner valueType : String)
    (amount : Nat) (hpos : 0 < amount) :
    (amount ≤ L.balanceOf owner valueType →
      ∃ sel, CoinSelector.select L owner amount valueType = .ok sel ∧
        sel ≠ [] ∧ amount ≤ sumBal sel) ∧
    (L.balanceOf owner valueType < amount →
      CoinSelector.select L owner amount valueType = .error .InsufficientBalance) :=
  ⟨select_ok_of_ge L owner valueType amount hpos,
   select_err_of_lt L owner valueType amount⟩

/-- Witness for C1 at a concrete ledger: one owner holding coins of balance 3
and 4, requesting 5 succeeds with a non-empty selection summing to at least 5,
and requesting 8 fails with `InsufficientBalance`. -/
theorem coinSelector_select_correct_witness :
    (0 < 5 ∧
      (5 ≤ (Ledger.mk fun _ _ => [⟨"a", 3⟩, ⟨"b", 4⟩]).balanceOf "o" "t" →
        ∃ sel, CoinSelector.select (Ledger.mk fun _ _ => [⟨"a", 3⟩, ⟨"b", 4⟩]) "o" 5 "t" = .ok sel ∧
          sel ≠ [] ∧ 5 ≤ sumBal sel) ∧
      ((Ledger.mk fun _ _ => [⟨"a", 3⟩, ⟨"b", 4⟩]).balanceOf "o" "t" < 5 →
        CoinSelector.select (Ledger.mk fun _ _ => [⟨"a", 3⟩, ⟨"b", 4⟩]) "o" 5 "t" = .error .InsufficientBalance)) ∧
    (0 < 8 ∧
      (8 ≤ (Ledger.mk fun _ _ => [⟨"a", 3⟩, ⟨"b", 4⟩]).balanceOf "o" "t" →
        ∃ sel, CoinSelector.select (Ledger.mk fun _ _ => [⟨"a", 3⟩, ⟨"b", 4⟩]) "o" 8 "t" = .ok sel ∧
          sel ≠ [] ∧ 8 ≤ sumBal sel) ∧
      ((Ledger.mk fun _ _ => [⟨"a", 3⟩, ⟨"b", 4⟩]).balanceOf "o" "t" < 8 →
        CoinSelector.select (Ledger.mk fun _ _ => [⟨"a", 3⟩, ⟨"b", 4⟩]) "o" 8 "t" = .error .InsufficientBalance)) :=
  ⟨⟨by decide, coinSelector_select_correct _ "o" "t" 5 (by decide)⟩,
   ⟨by decide, coinSelector_select_correct _ "o" "t" 8 (by decide)⟩⟩

/-- C2: on a non-empty coin list, `takeAmountFromCoins` succeeds and produces
exactly two output handles, the split result and the merged first coin; the
appended operations are merge-then-split in general and just the split when the
list is a singleton; evaluating the payload built on a fresh block shows the
first handle holding exactly the requested amount and the second the merged
remainder; on an empty list it fails with `InvalidCoinSet`. -/
theorem takeAmountFromCoins_correct (tx : SuiTxBlock) (coinIds : List String) (amount : Nat) :
    (coinIds = [] → tx.takeAmountFromCoins coinIds amount = .error .InvalidCoinSet) ∧
    (∀ first rest, coinIds = first :: rest →
      ∃ tx' splitIdx,
        tx.takeAmountFromCoins coinIds amount
          = .ok (tx', Handle.opResult splitIdx, Handle.coinObject first) ∧
        (rest = [] →
          tx'.txBlock.ops = tx.txBlock.ops ++ [.splitCoins (.coinObject first) amount]) ∧
        (rest ≠ [] →
          tx'.txBlock.ops = tx.txBlock.ops ++
            [.mergeCoins (.coinObject first) (rest.map .coinObject),
             .splitCoins (.coinObject first) amount]) ∧
        (tx = SuiTxBlock.empty → ∀ β : String → Nat, coinIds.Nodup →
          amount ≤ (coinIds.map β).sum →
          evalOps tx'.txBlock.ops 0 (initEnv β) (Handle.opResult splitIdx) = amount ∧
          evalOps tx'.txBlock.ops 0 (initEnv β) (Handle.coinObject first)
            = (coinIds.map β).sum - amount)) := by
  constructor
  · intro h
    subst h
    rfl
  · intro first rest hc
    subst hc
    cases rest with
    | nil =>
      refine ⟨tx.addOp (.splitCoins (.coinObject first) amount), tx.txBlock.ops.length,
        ?_, ?_, ?_, ?_⟩
      · simp [SuiTxBlock.takeAmountFromCoins]
      · intro _
        simp [SuiTxBlock.addOp]
      · intro h
        exact absurd rfl h
      · intro htx β _ hamt
        subst htx
        simp only [SuiTxBlock.empty, SuiTxBlock.addOp, List.nil_append, List.length_nil]
        simp [evalOps, evalOp, initEnv]
    | cons r rs =>
      refine ⟨(tx.addOp (.mergeCoins (.coinObject first)
            ((r :: rs).map .coinObject))).addOp (.splitCoins (.coinObject first) amount),
        tx.txBlock.ops.length + 1, ?_, ?_, ?_, ?_⟩
      · simp [SuiTxBlock.takeAmountFromCoins, SuiTxBlock.addOp]
      · intro h
        exact absurd h (by simp)
      · intro _
        simp [SuiTxBlock.addOp]
      · intro htx β hnd hamt
        subst htx
        have hfr : first ∉ r :: rs := by
          simpa using hnd.not_mem
        have hmem : Handle.coinObject first ∉ (r :: rs).map Handle.coinObject := by
          simpa using hfr
        simp only [SuiTxBlock.empty, SuiTxBlock.addOp, List.nil_append, List.length_nil,
          List.length_cons, List.singleton_append, List.cons_append]
        simp only [evalOps, evalOp]
        constructor
        · simp
        · have h1 : Handle.coinObject first ≠ Handle.opResult 1 := by simp
          have h2 : Handle.coinObject first ≠ Handle.opResult 0 := by simp
          have hfr' : ¬ (first = r ∨ first ∈ rs) := by simpa using hfr
          have hcomp : List.map (initEnv β ∘ Handle.coinObject) rs = List.map β rs := rfl
          simp [h1, h2, hmem, initEnv, List.map_map, Function.comp, hfr', hcomp]

/-- Witness for C2 at concrete inputs: the empty list fails with
`InvalidCoinSet`; on coins a and b of balance 4 each, taking 5 yields the
split handle holding exactly 5 and the merged handle holding the remainder 3. -/
theorem takeAmountFromCoins_correct_witness :
    (SuiTxBlock.empty.takeAmountFromCoins [] 5 = .error .InvalidCoinSet) ∧
    (∃ tx' splitIdx,
      SuiTxBlock.empty.takeAmountFromCoins ["a", "b"] 5
        = .ok (tx', Handle.opResult splitIdx, Handle.coinObject "a") ∧
      evalOps tx'.txBlock.ops 0 (initEnv fun _ => 4) (Handle.opResult splitIdx) = 5 ∧
      evalOps tx'.txBlock.ops 0 (initEnv fun _ => 4) (Handle.coinObject "a") = 3) := by
  refine ⟨(takeAmountFromCoins_correct SuiTxBlock.empty [] 5).1 rfl, ?_⟩
  obtain ⟨tx', si, h1, -, -, h4⟩ :=
    (takeAmountFromCoins_correct SuiTxBlock.empty ["a", "b"] 5).2 "a" ["b"] rfl
  obtain ⟨e1, e2⟩ := h4 rfl (fun _ => 4) (by decide) (by decide)
  refine ⟨tx', si, h1, e1, ?_⟩
  simpa using e2

/-- C4: `transferSuiToMany` fails with `LengthMismatch` whenever the two lists
have different lengths, and otherwise submits a payload holding exactly one
transfer operation per amount, whose recipient/amount pairing matches the
input order position by position. -/
theorem transferSuiToMany_correct (kit : SuiKit) (recipients : List String)
    (amounts : List Nat) (d : Option DerivePathParams) :
    (recipients.length ≠ amounts.length →
      kit.transferSuiToMany recipients amounts d = .error .LengthMismatch) ∧
    (recipients.length = amounts.length →
      ∃ signed, kit.transferSuiToMany recipients amounts d = .ok signed ∧
        signed.payload = .txBlock ⟨pairedTransferOps recipients amounts⟩ ∧
        (pairedTransferOps recipients amounts).length = amounts.length ∧
        ∀ i (h1 : i < recipients.length) (h2 : i < amounts.length)
          (hz : i < (pairedTransferOps recipients amounts).length),
          (pairedTransferOps recipients amounts).get ⟨i, hz⟩
            = TxOp.transferSui (recipients.get ⟨i, h1⟩) (amounts.get ⟨i, h2⟩)) := by
  constructor
  · intro hne
    simp [SuiKit.transferSuiToMany, SuiTxBlock.transferSuiToMany, hne]
  · intro heq
    refine ⟨⟨kit.accountManager.getKeyPair d,
      .txBlock ⟨pairedTransferOps recipients amounts⟩⟩, ?_, rfl, ?_, ?_⟩
    · simp [SuiKit.transferSuiToMany, SuiTxBlock.transferSuiToMany, heq,
        SuiKit.signAndSendTxn, signTransactionBlock, normalizeTxnInput, SuiTxBlock.empty,
        SuiKit.getSigner]
    · simp [pairedTransferOps, heq]
    · intro i h1 h2 hz
      simp [pairedTransferOps, List.get_eq_getElem, List.getElem_zipWith]

/-- Witness for C4 at concrete inputs: three recipients with three amounts
succeed with the three transfer operations paired in order, and two recipients
with one amount fail with `LengthMismatch`. -/
theorem transferSuiToMany_correct_witness :
    (∃ signed,
      (SuiKit.mk ⟨"me", 0, fun _ => "x", fun _ => 1⟩).transferSuiToMany
        ["A", "B", "C"] [10, 20, 30] none = .ok signed ∧
      signed.payload = .txBlock ⟨[TxOp.transferSui "A" 10, TxOp.transferSui "B" 20,
        TxOp.transferSui "C" 30]⟩) ∧
    (SuiKit.mk ⟨"me", 0, fun _ => "x", fun _ => 1⟩).transferSuiToMany
      ["A", "B"] [10] none = .error .LengthMismatch := by
  constructor
  · obtain ⟨signed, hok, hpl, -, -⟩ :=
      (transferSuiToMany_correct (SuiKit.mk ⟨"me", 0, fun _ => "x", fun _ => 1⟩)
        ["A", "B", "C"] [10, 20, 30] none).2 (by decide)
    refine ⟨signed, hok, ?_⟩
    rw [hpl]
    rfl
  · exact (transferSuiToMany_correct (SuiKit.mk ⟨"me", 0, fun _ => "x", fun _ => 1⟩)
      ["A", "B"] [10] none).1 (by decide)

theorem filter_fst_eq_nil (keys : List (String × Nat)) (k : String)
    (hk : k ∉ keys.map Prod.fst) :
    keys.filter (fun kw => decide (k = kw.1)) = [] := by
  induction keys with
  | nil => rfl
  | cons a rest ih =>
    simp only [List.map_cons, List.mem_cons, not_or] at hk
    have ha : ¬ (k = a.1) := fun h => hk.1 h
    simp only [List.filter_cons, decide_eq_true_eq]
    rw [if_neg (by simpa using ha)]
    exact ih hk.2

theorem filter_fst_eq_singleton (keys : List (String × Nat)) (k : String) (w : Nat)
    (hnd : (keys.map Prod.fst).Nodup) (hk : (k, w) ∈ keys) :
    keys.filter (fun kw => decide (k = kw.1)) = [(k, w)] := by
  induction keys with
  | nil => simp at hk
  | cons a rest ih =>
    simp only [List.map_cons, List.nodup_cons] at hnd
    rcases List.mem_cons.mp hk with hk1 | hk1
    · subst hk1
      have hrest : List.filter (fun kw => decide (k = kw.1)) rest = [] :=
        filter_fst_eq_nil rest k (by simpa using hnd.1)
      simp [List.filter_cons, hrest]
    · have ha : a.1 ≠ k := by
        intro h
        apply hnd.1
        rw [h]
        exact List.mem_map_of_mem Prod.fst hk1
      simp only [List.filter_cons, decide_eq_true_eq]
      rw [if_neg (by simpa using fun h => ha h.symm)]
      exact ih hnd.2 hk1

/-- C3: `MultiSigClient.combine` fails with `UnknownSigner` when some
signature's key is not in the policy; with all keys known it fails with
`ThresholdNotMet` exactly when the deduplicated weight sum is below the
threshold and succeeds otherwise; and duplicate signatures from one key of
weight 1 never satisfy a threshold of 2. -/
theorem multiSig_combine_correct (policy : MultiSigPolicy) (sigs : List SigShare) :
    ((∃ s ∈ sigs, ∀ kw ∈ policy.keys, kw.1 ≠ s.pubKey) →
      MultiSigClient.combine policy sigs = .error .UnknownSigner) ∧
    ((∀ s ∈ sigs, ∃ kw ∈ policy.keys, kw.1 = s.pubKey) →
      (dedupWeight policy sigs < policy.threshold →
        MultiSigClient.combine policy sigs = .error .ThresholdNotMet) ∧
      (policy.threshold ≤ dedupWeight policy sigs →
        ∃ auth, MultiSigClient.combine policy sigs = .ok auth)) ∧
    (∀ k, (policy.keys.map Prod.fst).Nodup → (k, 1) ∈ policy.keys →
      policy.threshold = 2 → sigs ≠ [] → (∀ s ∈ sigs, s.pubKey = k) →
      MultiSigClient.combine policy sigs = .error .ThresholdNotMet) := by
  refine ⟨?_, ?_, ?_⟩
  · intro hunk
    have hcond : (sigs.any fun s => !(policy.keys.any fun kw => decide (kw.1 = s.pubKey)))
        = true := by
      obtain ⟨s, hs, hall⟩ := hunk
      simp only [List.any_eq_true, Bool.not_eq_true', List.any_eq_false,
        decide_eq_true_eq, decide_eq_false_iff_not]
      exact ⟨s, hs, hall⟩
    simp [MultiSigClient.combine, hcond]
  · intro hknown
    have hcond : (sigs.any fun s => !(policy.keys.any fun kw => decide (kw.1 = s.pubKey)))
        = false := by
      simp only [List.any_eq_false, Bool.not_eq_true', Bool.not_eq_false',
        List.any_eq_true, decide_eq_true_eq]
      intro s hs hforall
      obtain ⟨kw, hkw, heq⟩ := hknown s hs
      exact hforall kw hkw heq
    constructor
    · intro hlt
      simp [MultiSigClient.combine, hcond, hlt]
    · intro hge
      refine ⟨{ bitmap := policy.keys.map fun kw => sigs.any fun s => decide (s.pubKey = kw.1)
                sigBytes :=
                  (policy.keys.filter fun kw => sigs.any fun s =>
                    decide (s.pubKey = kw.1)).filterMap
                    fun kw => (sigs.find? fun s => decide (s.pubKey = kw.1)).map (·.bytes)
                threshold := policy.threshold }, ?_⟩
      simp [MultiSigClient.combine, hcond, Nat.not_lt.mpr hge]
  · intro k hnd hk hthr hne hall
    have hcond : (sigs.any fun s => !(policy.keys.any fun kw => decide (kw.1 = s.pubKey)))
        = false := by
      simp only [List.any_eq_false, Bool.not_eq_true', Bool.not_eq_false',
        List.any_eq_true, decide_eq_true_eq]
      intro s hs hforall
      exact hforall (k, 1) hk (hall s hs).symm
    have hfilter : (policy.keys.filter fun kw => sigs.any fun s => decide (s.pubKey = kw.1))
        = policy.keys.filter (fun kw => decide (k = kw.1)) := by
      apply List.filter_congr
      intro kw _
      by_cases hkk : k = kw.1
      · obtain ⟨s, srest, rfl⟩ := List.exists_cons_of_ne_nil hne
        have hsk : s.pubKey = kw.1 := (hall s (by simp)).trans hkk
        simp [List.any_cons, hsk, hkk]
      · rw [decide_eq_false hkk]
        simp only [List.any_eq_false, decide_eq_true_eq]
        intro s hs h
        exact hkk ((hall s hs).symm.trans h)
    have hweight : dedupWeight policy sigs = 1 := by
      rw [dedupWeight, hfilter, filter_fst_eq_singleton policy.keys k 1 hnd hk]
      rfl
    have hlt : dedupWeight policy sigs < policy.threshold := by
      rw [hweight, hthr]
      decide
    simp [MultiSigClient.combine, hcond, hlt]

/-- Witness for C3 at the spec's example policy (weights k1:1, k2:1, k3:2,
threshold 2): signatures from k1 and k2 combine successfully; a single
signature from k1 fails with `ThresholdNotMet`; duplicate signatures from k1
also fail with `ThresholdNotMet`; a signature from an unknown key fails with
`UnknownSigner`. -/
theorem multiSig_combine_correct_witness :
    (∃ auth, MultiSigClient.combine ⟨[("k1", 1), ("k2", 1), ("k3", 2)], 2⟩
      [⟨"k1", [1]⟩, ⟨"k2", [2]⟩] = .ok auth) ∧
    (MultiSigClient.combine ⟨[("k1", 1), ("k2", 1), ("k3", 2)], 2⟩
      [⟨"k1", [1]⟩] = .error .ThresholdNotMet) ∧
    (MultiSigClient.combine ⟨[("k1", 1), ("k2", 1), ("k3", 2)], 2⟩
      [⟨"k1", [1]⟩, ⟨"k1", [9]⟩] = .error .ThresholdNotMet) ∧
    (MultiSigClient.combine ⟨[("k1", 1), ("k2", 1), ("k3", 2)], 2⟩
      [⟨"kX", [1]⟩] = .error .UnknownSigner) := by
  refine ⟨?_, ?_, ?_, ?_⟩
  · exact ((multiSig_combine_correct ⟨[("k1", 1), ("k2", 1), ("k3", 2)], 2⟩
      [⟨"k1", [1]⟩, ⟨"k2", [2]⟩]).2.1 (by decide)).2 (by decide)
  · exact ((multiSig_combine_correct ⟨[("k1", 1), ("k2", 1), ("k3", 2)], 2⟩
      [⟨"k1", [1]⟩]).2.1 (by decide)).1 (by decide)
  · exact (multiSig_combine_correct ⟨[("k1", 1), ("k2", 1), ("k3", 2)], 2⟩
      [⟨"k1", [1]⟩, ⟨"k1", [9]⟩]).2.2 "k1" (by decide) (by decide) rfl (by decide) (by decide)
  · exact (multiSig_combine_correct ⟨[("k1", 1), ("k2", 1), ("k3", 2)], 2⟩
      [⟨"kX", [1]⟩]).1 (by decide)

theorem le_foldr_max (l : List Nat) : ∀ x ∈ l, x ≤ l.foldr max 0 := by
  induction l with
  | nil => intro x hx; simp at hx
  | cons a rest ih =>
    intro x hx
    rcases List.mem_cons.mp hx with h | h
    · subst h
      simp [List.foldr_cons, Nat.le_max_left]
    · exact le_trans (ih x h) (by simp [List.foldr_cons, Nat.le_max_right])

theorem freshDir_not_mem (w : World) : freshDir w ∉ w.tmpDirs := by
  intro h
  have := le_foldr_max w.tmpDirs (freshDir w) h
  simp [freshDir] at this

theorem removeDir_createDir (w : World) (d : Nat) :
    (w.createDir d).removeDir d = w := by
  cases w
  simp [World.createDir, World.removeDir, List.erase_cons_head]

/-- C5: on every exit path of the publisher — success, build failure,
submission failure, or malformed result — the filesystem is restored to its
initial state (the temporary working directory created by the call is removed
before it returns, and any directory whose creation was traced also has its
removal traced); and on a nonexistent package path the call fails with
`PackageNotFound` with an empty directory trace, so no working directory was
ever created. -/
theorem publishPackage_cleanup (env : PublishEnv) (packagePath : String)
    (signer : RawSigner) (w : World) :
    ((SuiPackagePublisher.publishPackage env packagePath signer w).2.1 = w) ∧
    (∀ dir, DirEvent.created dir
        ∈ (SuiPackagePublisher.publishPackage env packagePath signer w).2.2 →
      DirEvent.removed dir
        ∈ (SuiPackagePublisher.publishPackage env packagePath signer w).2.2) ∧
    (env.pathIsDirectory packagePath = false →
      (SuiPackagePublisher.publishPackage env packagePath signer w).1
        = .error .PackageNotFound ∧
      (SuiPackagePublisher.publishPackage env packagePath signer w).2.2 = []) := by
  have hrc : (w.createDir (freshDir w)).removeDir (freshDir w) = w :=
    removeDir_createDir w (freshDir w)
  cases hp : env.pathIsDirectory packagePath with
  | false =>
    refine ⟨?_, ?_, ?_⟩ <;> simp [SuiPackagePublisher.publishPackage, hp]
  | true =>
    cases hb : env.buildSucceeds <;> cases hs : env.submitSucceeds <;>
      cases he : env.effectsHavePackage <;>
      refine ⟨?_, ?_, ?_⟩ <;>
      simp [SuiPackagePublisher.publishPackage, hp, hb, hs, he, hrc]

/-- Witness for C5 at concrete inputs: publishing a nonexistent path fails
with `PackageNotFound`, leaves the filesystem unchanged and traces no
directory events; publishing with a failing build also leaves the filesystem
unchanged. -/
theorem publishPackage_cleanup_witness :
    ((SuiPackagePublisher.publishPackage
        ⟨fun _ => false, true, true, true, "id"⟩ "nope" ⟨7⟩ ⟨[5]⟩).1
      = .error .PackageNotFound) ∧
    ((SuiPackagePublisher.publishPackage
        ⟨fun _ => false, true, true, true, "id"⟩ "nope" ⟨7⟩ ⟨[5]⟩).2.2 = []) ∧
    ((SuiPackagePublisher.publishPackage
        ⟨fun _ => false, true, true, true, "id"⟩ "nope" ⟨7⟩ ⟨[5]⟩).2.1 = ⟨[5]⟩) ∧
    ((SuiPackagePublisher.publishPackage
        ⟨fun _ => true, false, true, true, "id"⟩ "pkg" ⟨7⟩ ⟨[5]⟩).2.1 = ⟨[5]⟩) := by
  refine ⟨?_, ?_, ?_, ?_⟩
  · exact ((publishPackage_cleanup ⟨fun _ => false, true, true, true, "id"⟩
      "nope" ⟨7⟩ ⟨[5]⟩).2.2 rfl).1
  · exact ((publishPackage_cleanup ⟨fun _ => false, true, true, true, "id"⟩
      "nope" ⟨7⟩ ⟨[5]⟩).2.2 rfl).2
  · exact (publishPackage_cleanup ⟨fun _ => false, true, true, true, "id"⟩
      "nope" ⟨7⟩ ⟨[5]⟩).1
  · exact (publishPackage_cleanup ⟨fun _ => true, false, true, true, "id"⟩
      "pkg" ⟨7⟩ ⟨[5]⟩).1

/-- C6: for every builder payload and derivation-path selector, `signTxn` and
`signAndSendTxn` on the builder behave identically to themselves applied to
the builder's underlying raw transaction block: the builder variant is
normalized to the raw payload at the boundary before signing. -/
theorem signTxn_builder_normalized (kit : SuiKit) (tx : SuiTxBlock)
    (d : Option DerivePathParams) :
    kit.signTxn (.suiTx tx) d = kit.signTxn (.txBlock tx.txBlock) d ∧
    kit.signAndSendTxn (.suiTx tx) d = kit.signAndSendTxn (.txBlock tx.txBlock) d :=
  ⟨rfl, rfl⟩

/-- C7: for every address and coin type, reading the balance (and listing the
owned objects) twice with no intervening submission returns identical results
both times and leaves the ledger state unchanged. -/
theorem getBalance_idempotent (kit : SuiKit) (L : Ledger) (coinType owner : String)
    (d : Option DerivePathParams) :
    ((kit.getBalance L coinType d).1
      = (kit.getBalance (kit.getBalance L coinType d).2 coinType d).1) ∧
    ((kit.getBalance L coinType d).2 = L) ∧
    ((kit.getBalance (kit.getBalance L coinType d).2 coinType d).2 = L) ∧
    ((listOwnedObjects L owner coinType).1
      = (listOwnedObjects (listOwnedObjects L owner coinType).2 owner coinType).1) ∧
    ((listOwnedObjects L owner coinType).2 = L) :=
  ⟨rfl, rfl, rfl, rfl, rfl⟩

theorem takeAmount_ok (tx : SuiTxBlock) (x : String) (xs : List String) (amount : Nat) :
    ∃ tx' i, tx.takeAmountFromCoins (x :: xs) amount
      = .ok (tx', Handle.opResult i, Handle.coinObject x) := by
  cases xs with
  | nil => exact ⟨_, _, rfl⟩
  | cons y ys => exact ⟨_, _, rfl⟩

/-- C8: whenever the owner's balance covers a positive amount, `transferCoin`
submits a payload that transfers the exact-amount output handle of
`takeAmountFromCoins` to the recipient and transfers the merged remainder
handle back to the sender's own address. -/
theorem transferCoin_payload (kit : SuiKit) (L : Ledger) (recipient : String)
    (amount : Nat) (coinType : String) (d : Option DerivePathParams)
    (hpos : 0 < amount)
    (hbal : amount ≤ L.balanceOf (kit.accountManager.getAddress d) coinType) :
    ∃ coins tx₀ send merged,
      CoinSelector.select L (kit.accountManager.getAddress d) amount coinType = .ok coins ∧
      SuiTxBlock.empty.takeAmountFromCoins (coins.map (·.objectId)) amount
        = .ok (tx₀, send, merged) ∧
      kit.transferCoin L recipient amount coinType d
        = .ok ⟨kit.accountManager.getKeyPair d,
            .txBlock ⟨tx₀.txBlock.ops ++
              [.transferObjects [send] recipient,
               .transferObjects [merged] (kit.accountManager.getAddress d)]⟩⟩ := by
  obtain ⟨coins, hsel, hne, -⟩ :=
    select_ok_of_ge L (kit.accountManager.getAddress d) coinType amount hpos hbal
  obtain ⟨c, cs, rfl⟩ := List.exists_cons_of_ne_nil hne
  obtain ⟨tx₀, i, htake⟩ :=
    takeAmount_ok SuiTxBlock.empty c.objectId (cs.map (·.objectId)) amount
  have hmap : (c :: cs).map (·.objectId) = c.objectId :: cs.map (·.objectId) := rfl
  refine ⟨c :: cs, tx₀, .opResult i, .coinObject c.objectId, hsel, ?_, ?_⟩
  · rw [hmap]
    exact htake
  · simp only [SuiKit.transferCoin, hsel, hmap, htake, SuiTxBlock.addOp,
      SuiKit.signAndSendTxn, signTransactionBlock, normalizeTxnInput, SuiKit.getSigner]
    simp [List.append_assoc]

/-- Witness for C8 at concrete inputs: owner me holds coins of balance 3 and
4; transferring 5 to A selects both coins, takes 5 from them, and the
submitted payload transfers the split handle to A and the merged remainder
back to me. -/
theorem transferCoin_payload_witness :
    0 < 5 ∧
    5 ≤ (Ledger.mk fun _ _ => [⟨"a", 3⟩, ⟨"b", 4⟩]).balanceOf "me" "T" ∧
    ∃ coins tx₀ send merged,
      CoinSelector.select (Ledger.mk fun _ _ => [⟨"a", 3⟩, ⟨"b", 4⟩]) "me" 5 "T"
        = .ok coins ∧
      SuiTxBlock.empty.takeAmountFromCoins (coins.map (·.objectId)) 5
        = .ok (tx₀, send, merged) ∧
      (SuiKit.mk ⟨"me", 1, fun _ => "x", fun _ => 2⟩).transferCoin
          (Ledger.mk fun _ _ => [⟨"a", 3⟩, ⟨"b", 4⟩]) "A" 5 "T" none
        = .ok ⟨1, .txBlock ⟨tx₀.txBlock.ops ++
            [.transferObjects [send] "A", .transferObjects [merged] "me"]⟩⟩ :=
  ⟨by decide, by decide,
   transferCoin_payload (SuiKit.mk ⟨"me", 1, fun _ => "x", fun _ => 2⟩)
     (Ledger.mk fun _ _ => [⟨"a", 3⟩, ⟨"b", 4⟩]) "A" 5 "T" none
     (by decide) (by decide)⟩

/-- C9: `publishPackage` returns the same result for every value of its
options argument: the options parameter is never forwarded to the underlying
publisher, so two calls differing only in the options are indistinguishable. -/
theorem publishPackage_ignores_options (kit : SuiKit) (env : PublishEnv)
    (packagePath : String) (o1 o2 : Option PublishOptions)
    (d : Option DerivePathParams) (w : World) :
    kit.publishPackage env packagePath o1 d w
      = kit.publishPackage env packagePath o2 d w := rfl

/-- C10: each of `transferSui`, `stakeSui`, `transferSuiToMany` and
`transferCoin` builds its payload on a fresh, empty block, so the submitted
payload contains exactly the operations appended by that one call and no
operation state is carried between facade calls. -/
theorem facade_fresh_txblock (kit : SuiKit) (d : Option DerivePathParams) :
    (∀ recipient amount, (kit.transferSui recipient amount d).payload
        = .txBlock ⟨[TxOp.transferSui recipient amount]⟩) ∧
    (∀ amount validator, (kit.stakeSui amount validator d).payload
        = .txBlock ⟨[TxOp.stakeSui amount validator]⟩) ∧
    (∀ recipients amounts signed,
      kit.transferSuiToMany recipients amounts d = .ok signed →
      signed.payload = .txBlock ⟨pairedTransferOps recipients amounts⟩) ∧
    (∀ L recipient amount coinType signed,
      kit.transferCoin L recipient amount coinType d = .ok signed →
      ∃ coins tx₀ send merged,
        CoinSelector.select L (kit.accountManager.getAddress d) amount coinType
          = .ok coins ∧
        SuiTxBlock.empty.takeAmountFromCoins (coins.map (·.objectId)) amount
          = .ok (tx₀, send, merged) ∧
        signed.payload = .txBlock ⟨tx₀.txBlock.ops ++
          [.transferObjects [send] recipient,
           .transferObjects [merged] (kit.accountManager.getAddress d)]⟩) := by
  refine ⟨fun r a => rfl, fun a v => rfl, ?_, ?_⟩
  · intro recipients amounts signed h
    by_cases hl : recipients.length = amounts.length
    · simp only [SuiKit.transferSuiToMany, SuiTxBlock.transferSuiToMany, hl,
        ne_eq, not_true_eq_false, if_false, SuiKit.signAndSendTxn,
        signTransactionBlock, normalizeTxnInput, SuiTxBlock.empty,
        SuiKit.getSigner, Except.ok.injEq] at h
      subst h
      rfl
    · simp [SuiKit.transferSuiToMany, SuiTxBlock.transferSuiToMany, hl] at h
  · intro L recipient amount coinType signed h
    rcases hsel : CoinSelector.select L (kit.accountManager.getAddress d) amount coinType
      with e | coins
    · simp [SuiKit.transferCoin, hsel] at h
    · cases coins with
      | nil =>
        simp [SuiKit.transferCoin, hsel, SuiTxBlock.takeAmountFromCoins] at h
      | cons c cs =>
        obtain ⟨tx₀, i, htake⟩ :=
          takeAmount_ok SuiTxBlock.empty c.objectId (cs.map (·.objectId)) amount
        have hmap : (c :: cs).map (·.objectId) = c.objectId :: cs.map (·.objectId) := rfl
        refine ⟨c :: cs, tx₀, .opResult i, .coinObject c.objectId, rfl, ?_, ?_⟩
        · rw [hmap]
          exact htake
        · simp only [SuiKit.transferCoin, hsel, hmap, htake, SuiTxBlock.addOp,
            SuiKit.signAndSendTxn, signTransactionBlock, normalizeTxnInput,
            SuiKit.getSigner, Except.ok.injEq] at h
          subst h
          simp [List.append_assoc]

/-- Witness for C10 at concrete inputs: each facade call on a kit whose
current key is 1 submits a payload holding exactly the operations of that
call. -/
theorem facade_fresh_txblock_witness :
    (((SuiKit.mk ⟨"me", 1, fun _ => "x", fun _ => 2⟩).transferSui "A" 10 none).payload
      = .txBlock ⟨[TxOp.transferSui "A" 10]⟩) ∧
    (((SuiKit.mk ⟨"me", 1, fun _ => "x", fun _ => 2⟩).stakeSui 5 "V" none).payload
      = .txBlock ⟨[TxOp.stakeSui 5 "V"]⟩) ∧
    (∃ s, (SuiKit.mk ⟨"me", 1, fun _ => "x", fun _ => 2⟩).transferSuiToMany
        ["A"] [10] none = .ok s ∧
      s.payload = .txBlock ⟨pairedTransferOps ["A"] [10]⟩) ∧
    (∃ s, (SuiKit.mk ⟨"me", 1, fun _ => "x", fun _ => 2⟩).transferCoin
        (Ledger.mk fun _ _ => [⟨"a", 3⟩, ⟨"b", 4⟩]) "A" 5 "T" none = .ok s ∧
      ∃ coins tx₀ send merged,
        CoinSelector.select (Ledger.mk fun _ _ => [⟨"a", 3⟩, ⟨"b", 4⟩]) "me" 5 "T"
          = .ok coins ∧
        SuiTxBlock.empty.takeAmountFromCoins (coins.map (·.objectId)) 5
          = .ok (tx₀, send, merged) ∧
        s.payload = .txBlock ⟨tx₀.txBlock.ops ++
          [.transferObjects [send] "A", .transferObjects [merged] "me"]⟩) := by
  refine ⟨(facade_fresh_txblock (SuiKit.mk ⟨"me", 1, fun _ => "x", fun _ => 2⟩)
      none).1 "A" 10,
    (facade_fresh_txblock (SuiKit.mk ⟨"me", 1, fun _ => "x", fun _ => 2⟩)
      none).2.1 5 "V", ?_, ?_⟩
  · refine ⟨⟨1, .txBlock ⟨pairedTransferOps ["A"] [10]⟩⟩, rfl, ?_⟩
    exact (facade_fresh_txblock (SuiKit.mk ⟨"me", 1, fun _ => "x", fun _ => 2⟩)
      none).2.2.1 ["A"] [10] _ rfl
  · refine ⟨⟨1, .txBlock ⟨[.mergeCoins (.coinObject "a") [.coinObject "b"],
      .splitCoins (.coinObject "a") 5, .transferObjects [.opResult 1] "A",
      .transferObjects [.coinObject "a"] "me"]⟩⟩, rfl, ?_⟩
    exact (facade_fresh_txblock (SuiKit.mk ⟨"me", 1, fun _ => "x", fun _ => 2⟩)
      none).2.2.2 (Ledger.mk fun _ _ => [⟨"a", 3⟩, ⟨"b", 4⟩]) "A" 5 "T" _ rfl

end SuiKitModel
